import Mathlib

/-!
Shallow embedding of the agentic-assistant repository (src/memory.py,
src/planner.py, src/executor.py, src/agent.py) and proofs of the frozen
claims about it.

Conventions of the embedding:
* Python strings are `String`; Python string lowering (`str.lower`) and the
  `in` substring test are modelled character-wise (`pyLower`, `pyContains`);
  the sources only apply them to ASCII text.
* Python list slices `l[-k:]` are modelled by `pyLastSlice`, including the
  `k = 0` case where Python returns the WHOLE list (`l[-0:] = l[0:] = l`).
* `datetime.now().isoformat()` is an external clock read; every operation
  that stamps a record receives the timestamp (or a timestamp stream
  `clk : Nat → String`) as an explicit argument.
* Raising an exception is modelled by `Except`/dedicated error constructors;
  a total Lean function models Python code that cannot raise.
* The OpenAI chat call inside `AgenticAI._decide_next_action` is an external
  oracle; the loop-level embedding takes the oracle as a function from the
  iteration number to the parsed action, and the parsing fallback itself is
  modelled separately (`decide_next_action`) over an abstract `loads`.
-/

namespace Agentic

/-- Python slice `l[-k:]`: the last `k` elements for `k ≥ 1` (all of them if
`k ≥ l.length`), but the whole list when `k = 0`, since `l[-0:]` is `l[0:]`. -/
def pyLastSlice (l : List α) (k : Nat) : List α :=
  if k = 0 then l else l.drop (l.length - k)

/-- ASCII lowering, modelling Python `str.lower` on the ASCII goals used here. -/
def pyLower (s : String) : String := String.mk (s.data.map Char.toLower)

def charsAtHead : List Char → List Char → Bool
  | [], _ => true
  | _ :: _, [] => false
  | a :: as, b :: bs => a == b && charsAtHead as bs

def charsHaveSub (sub : List Char) : List Char → Bool
  | [] => charsAtHead sub []
  | b :: bs => charsAtHead sub (b :: bs) || charsHaveSub sub bs

/-- Python `sub in s` substring membership test. -/
def pyContains (sub s : String) : Bool := charsHaveSub sub.data s.data

/-! ## src/memory.py -/

/-- A conversation message (`Memory.add_message` dict):
`{"role": .., "content": .., "timestamp": ..}`. -/
structure Message where
  role : String
  content : String
  timestamp : String
deriving DecidableEq

/-- A tool-usage record (`Memory.add_tool_use` dict):
`{"tool": .., "input": .., "result": .., "timestamp": ..}`; the parameter
dict is a key/value association list, the result a string. -/
structure ToolUse where
  tool : String
  input : List (String × String)
  result : String
  timestamp : String
deriving DecidableEq

/-- The `Memory` object state: `messages`, `tool_usage`, `max_history`. -/
structure Memory where
  messages : List Message
  tool_usage : List ToolUse
  max_history : Nat
deriving DecidableEq

/-- `Memory.__init__(max_history=100)`. -/
def Memory.start (max_history : Nat := 100) : Memory :=
  { messages := [], tool_usage := [], max_history := max_history }

/-- `Memory.add_message`: append the message dict, then
`if len(self.messages) > self.max_history: self.messages = self.messages[-self.max_history:]`.
The timestamp (`datetime.now().isoformat()`) is passed explicitly. -/
def Memory.add_message (m : Memory) (role content ts : String) : Memory :=
  let msgs := m.messages ++ [{ role := role, content := content, timestamp := ts }]
  let msgs := if msgs.length > m.max_history then pyLastSlice msgs m.max_history else msgs
  { m with messages := msgs }

/-- `Memory.add_tool_use`: append a tool record; unbounded. -/
def Memory.add_tool_use (m : Memory) (tool : String) (input : List (String × String))
    (result ts : String) : Memory :=
  { m with tool_usage := m.tool_usage ++
      [{ tool := tool, input := input, result := result, timestamp := ts }] }

/-- `Memory.get_recent_history(n)`:
`recent = self.messages[-n:] if len(self.messages) > n else self.messages`,
then concatenate `f"{role}: {content}\n"` lines. -/
def Memory.get_recent_history (m : Memory) (n : Nat) : String :=
  let recent := if m.messages.length > n then pyLastSlice m.messages n else m.messages
  recent.foldl (fun acc msg => acc ++ msg.role ++ ": " ++ msg.content ++ "\n") ""

/-- `Memory.get_tools_used`: `list(set(record["tool"] for ...))`; the set's
iteration order is modelled as first-occurrence order. -/
def Memory.get_tools_used (m : Memory) : List String :=
  (m.tool_usage.map (fun r => r.tool)).foldl
    (fun acc t => if t ∈ acc then acc else acc ++ [t]) []

/-- The persisted JSON document written by `Memory.save_to_file`: two
top-level fields.  Fields are `Option` so that `load_from_file`'s
`data.get(key, [])` defaults are representable; JSON serialization of these
string-valued records is lossless, so the document carries the lists
themselves. -/
structure MemoryFile where
  messages : Option (List Message)
  tool_usage : Option (List ToolUse)
deriving DecidableEq

/-- `Memory.save_to_file`: `json.dump({"messages": .., "tool_usage": ..})`. -/
def Memory.save_to_file (m : Memory) : MemoryFile :=
  { messages := some m.messages, tool_usage := some m.tool_usage }

/-- `Memory.load_from_file`: replaces `messages`/`tool_usage` by
`data.get("messages", [])` / `data.get("tool_usage", [])`. -/
def Memory.load_from_file (m : Memory) (f : MemoryFile) : Memory :=
  { m with messages := f.messages.getD [], tool_usage := f.tool_usage.getD [] }

/-! ## src/planner.py -/

/-- A plan step dict.  Steps created by `_decompose_goal` carry
`action`/`description` and possibly `tool`; the `status` key is absent until
`update_plan_status` writes it (reads use `step.get("status", "pending")`). -/
structure Step where
  action : String
  tool : Option String
  description : String
  status : Option String
deriving DecidableEq

structure Plan where
  goal : String
  steps : List Step
  status : String
deriving DecidableEq

/-- `TaskPlanner` state: `self.current_plan`, `None` initially. -/
structure TaskPlanner where
  current_plan : Option Plan
deriving DecidableEq

def calcStep : Step :=
  { action := "use_tool", tool := some "calculator",
    description := "Perform calculation", status := none }

def searchStep : Step :=
  { action := "use_tool", tool := some "web_search",
    description := "Search for information", status := none }

def readStep : Step :=
  { action := "use_tool", tool := some "file_read",
    description := "Read file contents", status := none }

def writeStep : Step :=
  { action := "use_tool", tool := some "file_write",
    description := "Write to file", status := none }

def timeStep : Step :=
  { action := "use_tool", tool := some "get_current_time",
    description := "Get current time", status := none }

def weatherStep : Step :=
  { action := "use_tool", tool := some "weather",
    description := "Get weather information", status := none }

def thinkStep : Step :=
  { action := "think", tool := none,
    description := "Analyze the goal and determine approach", status := none }

def synthesizeStep : Step :=
  { action := "synthesize", tool := none,
    description := "Combine results and provide final answer", status := none }

/-- Keyword test for the calculation category. -/
def calcMatch (g : String) : Bool :=
  ["calculate", "compute", "+", "-", "*", "/", "sum"].any (fun w => pyContains w g)

/-- Keyword test for the search category. -/
def searchMatch (g : String) : Bool :=
  ["search", "find", "look up", "research"].any (fun w => pyContains w g)

/-- Keyword test for the file-read category: `'read' in goal and 'file' in goal`. -/
def readMatch (g : String) : Bool := pyContains "read" g && pyContains "file" g

/-- Keyword test for the file-write category: `'write' in goal or 'save' in goal`. -/
def writeMatch (g : String) : Bool := pyContains "write" g || pyContains "save" g

/-- Keyword test for the time/date category. -/
def timeMatch (g : String) : Bool :=
  ["time", "date", "when", "current"].any (fun w => pyContains w g)

/-- Keyword test for the weather category. -/
def weatherMatch (g : String) : Bool := pyContains "weather" g

/-- `TaskPlanner._decompose_goal(goal, tools)`: sequential keyword checks on
`goal.lower()`, each appending its `use_tool` step; a `think` step if no step
was added; a terminal `synthesize` step always.  The `tools` argument is
never read by the source. -/
def decompose_goal (goal : String) (tools : List (String × String)) : List Step :=
  let g := pyLower goal
  let steps : List Step := []
  let steps := if calcMatch g then steps ++ [calcStep] else steps
  let steps := if searchMatch g then steps ++ [searchStep] else steps
  let steps := if readMatch g then steps ++ [readStep] else steps
  let steps := if writeMatch g then steps ++ [writeStep] else steps
  let steps := if timeMatch g then steps ++ [timeStep] else steps
  let steps := if weatherMatch g then steps ++ [weatherStep] else steps
  let steps := if steps.isEmpty then steps ++ [thinkStep] else steps
  let _ := tools
  steps ++ [synthesizeStep]

/-- `TaskPlanner.create_plan`: build the plan dict with status `"pending"`,
store it as `current_plan`, return it. -/
def TaskPlanner.create_plan (p : TaskPlanner) (goal : String) (available_tools : List (String × String)) :
    Plan × TaskPlanner :=
  let plan : Plan := { goal := goal, steps := decompose_goal goal available_tools,
                       status := "pending" }
  (plan, { p with current_plan := some plan })

/-- Set the `status` key of the step at (nonnegative) position `i`. -/
def setStepStatus : List Step → Nat → String → List Step
  | [], _, _ => []
  | s :: rest, 0, st => { s with status := some st } :: rest
  | s :: rest, n + 1, st => s :: setStepStatus rest n st

/-- `TaskPlanner.update_plan_status(step_index, status)`:
`if self.current_plan and step_index < len(steps): steps[step_index]["status"] = status`.
`step_index` is a Python `int`; the guard only checks the upper bound, so a
negative index reaches the assignment, which follows Python indexing: an
index in `[-len, -1]` wraps around, anything smaller raises `IndexError`. -/
def TaskPlanner.update_plan_status (p : TaskPlanner) (step_index : Int) (status : String) :
    Except String TaskPlanner :=
  match p.current_plan with
  | none => .ok p
  | some plan =>
    if step_index < (plan.steps.length : Int) then
      let j : Int := if step_index < 0 then step_index + plan.steps.length else step_index
      if 0 ≤ j then
        let plan' : Plan := { plan with steps := setStepStatus plan.steps j.toNat status }
        .ok { p with current_plan := some plan' }
      else
        .error "IndexError: list assignment index out of range"
    else .ok p

/-! ## src/executor.py -/

/-- One entry of `ToolExecutor.execution_history`
(`ToolExecutor._record_execution`). -/
structure ExecRecord where
  timestamp : String
  tool : String
  parameters : List (String × String)
  result : Option String
  success : Bool
  error : Option String
deriving DecidableEq

/-- A tool invocation, as a function of the attempt index: the attempts of a
retried call may behave differently (the tool is external and stateful), so
attempt `k` either returns a value or raises the error `tool k` yields. -/
abbrev ToolBehavior := Nat → Except String String

/-- One pass through the body of `ToolExecutor.execute_with_retry` (attempt
`k`): call the tool; on success append a success record and return; on an
exception append a failure record and re-raise. -/
def attempt_body (tool : ToolBehavior) (name : String) (params : List (String × String))
    (clk : Nat → String) (k : Nat) (ledger : List ExecRecord) :
    Except String String × List ExecRecord :=
  match tool k with
  | .ok v => (.ok v,
      ledger ++ [{ timestamp := clk k, tool := name, parameters := params,
                   result := some v, success := true, error := none }])
  | .error e => (.error e,
      ledger ++ [{ timestamp := clk k, tool := name, parameters := params,
                   result := none, success := false, error := some e }])

/-- Outcome of a tenacity-wrapped call: the value, or tenacity's
retry-exhaustion error wrapping the last attempt's underlying error. -/
inductive RetryOutcome where
  | ok (v : String)
  | retryError (lastError : String)
deriving DecidableEq

/-- The tenacity `@retry(stop=stop_after_attempt(n))` driver: run the body;
on success stop; on failure retry until `n` attempts have been made, then
raise `RetryError` holding the last error.  (The exponential-backoff waits
only affect timing, not values.) -/
def retry_loop (body : Nat → List ExecRecord → Except String String × List ExecRecord) :
    Nat → Nat → List ExecRecord → RetryOutcome × List ExecRecord
  | 0, _, ledger => (.retryError "", ledger)
  | fuel + 1, k, ledger =>
    match body k ledger with
    | (.ok v, ledger') => (.ok v, ledger')
    | (.error e, ledger') =>
      match fuel with
      | 0 => (.retryError e, ledger')
      | _ + 1 => retry_loop body fuel (k + 1) ledger'

/-- `ToolExecutor.execute_with_retry`, decorated with
`@retry(stop=stop_after_attempt(3), wait=wait_exponential(...))`: up to 3
attempts, each attempt running the full recording body. -/
def execute_with_retry (tool : ToolBehavior) (name : String)
    (params : List (String × String)) (clk : Nat → String)
    (ledger : List ExecRecord) : RetryOutcome × List ExecRecord :=
  retry_loop (attempt_body tool name params clk) 3 0 ledger

/-- `ToolExecutor.execute_safe`: `try: return self.execute_with_retry(...)
except Exception: return default_value`. -/
def execute_safe (tool : ToolBehavior) (name : String)
    (params : List (String × String)) (clk : Nat → String)
    (default_value : String) (ledger : List ExecRecord) : String × List ExecRecord :=
  match execute_with_retry tool name params clk ledger with
  | (.ok v, ledger') => (v, ledger')
  | (.retryError _, ledger') => (default_value, ledger')

/-! ## src/agent.py -/

/-- The three decision shapes the loop branches on
(`{"type": "use_tool" | "think" | "complete", ...}`). -/
inductive Action where
  | use_tool (tool : String) (input : List (String × String))
  | think (thought : String)
  | complete (result : String)
deriving DecidableEq

/-- `AgenticAI._decide_next_action`, parsing stage: `json.loads` of the
oracle's raw text is abstracted by `loads`; `none` models
`json.JSONDecodeError`, in which case the source falls back to
`{"type": "think", "thought": decision_text}`. -/
def decide_next_action (loads : String → Option Action) (decision_text : String) : Action :=
  match loads decision_text with
  | some d => d
  | none => .think decision_text

/-- The fixed exhaustion result of `AgenticAI.execute`. -/
def exhausted_message : String := "Maximum iterations reached without completing goal"

/-- The record returned by `AgenticAI.execute`. -/
structure ExecResult where
  success : Bool
  result : String
  iterations : Nat
  tools_used : List String
deriving DecidableEq

/-- The `while iteration < self.max_iterations` loop of `AgenticAI.execute`,
reified with the remaining-pass count `fuel = max_iterations - iteration` as
the recursion measure (the loop guard `iteration < max_iterations` holds iff
`fuel > 0`, and each pass increments `iteration` and decrements `fuel`).
`oracle j` is the decision obtained on iteration `j` (the oracle call is
external; its dependence on goal/plan/history is absorbed into the
function), `runTool` is `ToolRegistry.execute` (total: the registry converts
every internal exception into an error string), `clk`/`ci` thread the
timestamp stream.  Returns (iteration, memory, final result if any, clock
index). -/
def exec_loop (oracle : Nat → Action) (runTool : String → List (String × String) → String)
    (clk : Nat → String) :
    Nat → Nat → Nat → Memory → Nat × Memory × Option String × Nat
  | 0, iteration, ci, mem => (iteration, mem, none, ci)
  | fuel + 1, iteration, ci, mem =>
    let it := iteration + 1
    match oracle it with
    | .complete r => (it, mem, some r, ci)
    | .use_tool t inp =>
      let res := runTool t inp
      exec_loop oracle runTool clk fuel it (ci + 1) (mem.add_tool_use t inp res (clk ci))
    | .think th =>
      exec_loop oracle runTool clk fuel it (ci + 1) (mem.add_message "assistant" th (clk ci))

/-- `AgenticAI.execute(goal)`: add the goal as a user message, create the
plan (informational context for the oracle; it updates the planner state),
run the loop, substitute the fixed exhaustion message if no `complete`
action arrived, append the final result as an assistant message, and return
the result record together with the final memory and planner states. -/
def agent_execute (oracle : Nat → Action) (runTool : String → List (String × String) → String)
    (clk : Nat → String) (planner : TaskPlanner) (descs : List (String × String))
    (maxIter : Nat) (goal : String) (mem0 : Memory) :
    ExecResult × Memory × TaskPlanner :=
  let mem1 := mem0.add_message "user" goal (clk 0)
  let planner1 := (planner.create_plan goal descs).2
  let out := exec_loop oracle runTool clk maxIter 0 1 mem1
  let final := out.2.2.1.getD exhausted_message
  let mem3 := out.2.1.add_message "assistant" final (clk out.2.2.2)
  ({ success := decide (out.1 < maxIter), result := final, iterations := out.1,
     tools_used := mem3.get_tools_used }, mem3, planner1)

/-! ## Auxiliary definitions used to state the claims -/

/-- The last `h` elements of a list (all of them when `h ≥ length`). -/
def dropToLast (h : Nat) (xs : List α) : List α := xs.drop (xs.length - h)

/-- Build the `Message` that `add_message role content` creates at time `ts`. -/
def mkMsg (x : String × String × String) : Message :=
  { role := x.1, content := x.2.1, timestamp := x.2.2 }

/-- Run a sequence of `add_message` calls (role, content, timestamp). -/
def add_messages (m : Memory) (l : List (String × String × String)) : Memory :=
  l.foldl (fun acc x => acc.add_message x.1 x.2.1 x.2.2) m

/-- The `"<role>: <content>"` line rendering used by `get_recent_history`. -/
def renderHistory (l : List Message) : String :=
  l.foldl (fun acc msg => acc ++ msg.role ++ ": " ++ msg.content ++ "\n") ""

/-- Spec-side description of the planner's decomposition: the `use_tool`
steps of the matched keyword categories, one per category, in the source's
fixed category order. -/
def matchedSteps (goal : String) : List Step :=
  let g := pyLower goal
  (if calcMatch g then [calcStep] else []) ++
  (if searchMatch g then [searchStep] else []) ++
  (if readMatch g then [readStep] else []) ++
  (if writeMatch g then [writeStep] else []) ++
  (if timeMatch g then [timeStep] else []) ++
  (if weatherMatch g then [weatherStep] else [])

/-- The `result` a `complete` action carries, if the action is `complete`. -/
def completePart : Action → Option String
  | .complete s => some s
  | _ => none

/-- A tool that fails on attempts 0 and 1 and succeeds on attempt 2. -/
def failTwiceTool : ToolBehavior :=
  fun k => if k = 0 then .error "e0" else if k = 1 then .error "e1" else .ok "yay"

/-- A tool that fails on every attempt, with the attempt index as message. -/
def alwaysFailTool : ToolBehavior := fun k => .error (toString k)

/-- A constant timestamp stream for concrete evaluations. -/
def tsClk : Nat → String := fun _ => "ts"

/-- A plan whose `status` key update `update_plan_status` performs. -/
def withStepsSet (plan : Plan) (n : Nat) (st : String) : Plan :=
  { plan with steps := setStepStatus plan.steps n st }

/-- The plan the claim expects for the goal `"Calculate 2+2"`. -/
def calcPlan : Plan :=
  { goal := "Calculate 2+2", steps := [calcStep, synthesizeStep], status := "pending" }

/-- The plan the claim expects for the goal `"Do something vague"`. -/
def vaguePlan : Plan :=
  { goal := "Do something vague", steps := [thinkStep, synthesizeStep], status := "pending" }

/-- A two-step plan, for concrete evaluations. -/
def twoStepPlan : Plan :=
  { goal := "g", steps := [thinkStep, synthesizeStep], status := "pending" }

/-- A planner holding the two-step plan as its current plan. -/
def twoStepPlanner : TaskPlanner := { current_plan := some twoStepPlan }

/-- An oracle that always thinks `"x"`. -/
def thinkOracle : Nat → Action := fun _ => .think "x"

/-- An oracle that thinks `"x"` until iteration 2, where it completes `"42"`. -/
def lateOracle : Nat → Action := fun k => if k = 2 then .complete "42" else .think "x"

/-! ## Memory store lemmas -/

theorem dropToLast_of_le {xs : List α} {h : Nat} (hle : xs.length ≤ h) :
    dropToLast h xs = xs := by
  unfold dropToLast
  rw [Nat.sub_eq_zero_of_le hle, List.drop_zero]

theorem length_dropToLast (h : Nat) (xs : List α) :
    (dropToLast h xs).length = xs.length - (xs.length - h) := by
  simp [dropToLast]

theorem dropToLast_absorb (h : Nat) (xs ys : List α) :
    dropToLast h (dropToLast h xs ++ ys) = dropToLast h (xs ++ ys) := by
  unfold dropToLast
  have hk : xs.length - h ≤ xs.length := Nat.sub_le _ _
  have h1 : xs.drop (xs.length - h) ++ ys = (xs ++ ys).drop (xs.length - h) := by
    rw [List.drop_append_eq_append_drop, Nat.sub_eq_zero_of_le hk, List.drop_zero]
  rw [h1, List.drop_drop, List.length_drop, List.length_append]
  congr 1
  omega

theorem add_message_eq (m : Memory) (r c t : String) (hpos : 1 ≤ m.max_history) :
    m.add_message r c t =
      { m with messages := dropToLast m.max_history (m.messages ++ [mkMsg (r, c, t)]) } := by
  simp only [Memory.add_message, mkMsg, dropToLast, pyLastSlice]
  by_cases hl : (m.messages ++ [({ role := r, content := c, timestamp := t } : Message)]).length >
      m.max_history
  · rw [if_pos hl, if_neg (show ¬ m.max_history = 0 by omega)]
  · rw [if_neg hl, Nat.sub_eq_zero_of_le (by omega), List.drop_zero]

theorem add_messages_messages (l : List (String × String × String)) :
    ∀ m : Memory, 1 ≤ m.max_history → m.messages.length ≤ m.max_history →
    (add_messages m l).messages = dropToLast m.max_history (m.messages ++ l.map mkMsg) ∧
    (add_messages m l).max_history = m.max_history := by
  induction l with
  | nil =>
    intro m h1 h2
    refine ⟨?_, rfl⟩
    show m.messages = dropToLast m.max_history (m.messages ++ [])
    rw [List.append_nil, dropToLast_of_le h2]
  | cons x l ih =>
    intro m h1 h2
    have hstep := add_message_eq m x.1 x.2.1 x.2.2 h1
    have hrw : add_messages m (x :: l) = add_messages (m.add_message x.1 x.2.1 x.2.2) l := rfl
    rw [hrw, hstep]
    have hlen : (dropToLast m.max_history (m.messages ++ [mkMsg x])).length ≤ m.max_history := by
      rw [length_dropToLast]; omega
    obtain ⟨ha, hb⟩ := ih { m with
        messages := dropToLast m.max_history (m.messages ++ [mkMsg x]) } h1 hlen
    refine ⟨?_, hb⟩
    rw [ha]
    show dropToLast m.max_history (dropToLast m.max_history (m.messages ++ [mkMsg x]) ++
      l.map mkMsg) = _
    rw [dropToLast_absorb, List.append_assoc]
    rfl

/-- C3 (amended): for every configured `max_history ≥ 1` and every sequence
of `add_message` calls, on a fresh store, whose length exceeds
`max_history`, the messages list afterwards has length exactly
`max_history` and its elements are exactly the most recently added
`max_history` messages in insertion order; `add_message` is total (always
succeeds).  The `max_history = 0` configuration is excluded: there the
Python trim slice `messages[-0:]` keeps everything (see the
counterexample). -/
theorem add_message_fifo_truncation (h : Nat) (l : List (String × String × String))
    (hpos : 1 ≤ h) (hlen : h < l.length) :
    (add_messages (Memory.start h) l).messages = (l.map mkMsg).drop (l.length - h) ∧
    (add_messages (Memory.start h) l).messages.length = h := by
  obtain ⟨ha, _⟩ := add_messages_messages l (Memory.start h) hpos (by simp [Memory.start])
  have hmsg : (add_messages (Memory.start h) l).messages = (l.map mkMsg).drop (l.length - h) := by
    rw [ha]
    simp [Memory.start, dropToLast]
  refine ⟨hmsg, ?_⟩
  rw [hmsg, List.length_drop, List.length_map]
  omega

/-- C3 witness: `max_history = 1`, two `add_message` calls leave exactly the
second message. -/
theorem add_message_fifo_truncation_witness :
    (add_messages (Memory.start 1) [("user", "a", "t1"), ("user", "b", "t2")]).messages =
      (([("user", "a", "t1"), ("user", "b", "t2")] :
        List (String × String × String)).map mkMsg).drop
        (([("user", "a", "t1"), ("user", "b", "t2")] :
          List (String × String × String)).length - 1) ∧
    (add_messages (Memory.start 1) [("user", "a", "t1"), ("user", "b", "t2")]).messages.length =
      1 :=
  add_message_fifo_truncation 1 [("user", "a", "t1"), ("user", "b", "t2")]
    (by decide) (by decide)

/-- C3 counterexample: with `max_history = 0`, a single `add_message` call
(a sequence whose length exceeds `max_history`) leaves a messages list of
length 1, not `max_history = 0`: the trim `self.messages[-0:]` is the whole
list in Python, so a `max_history = 0` store grows without bound. -/
theorem add_message_zero_history_not_truncated :
    ((Memory.start 0).add_message "user" "hi" "t").messages.length = 1 ∧
    ¬ ((Memory.start 0).add_message "user" "hi" "t").messages.length = 0 := by
  decide

/-- C5 (amended): for every `n ≥ 1` and every store, `get_recent_history n`
returns all messages (in order) when the store holds fewer than `n`, and
exactly the last `n` when it holds `n` or more, each formatted as a
`"<role>: <content>"` line; the call reads `messages` only, so the store is
unmodified.  The case `n = 0` is excluded: there the Python slice
`messages[-0:]` yields every message (see the counterexample). -/
theorem get_recent_history_spec (m : Memory) (n : Nat) (hn : 1 ≤ n) :
    m.get_recent_history n =
      renderHistory (if m.messages.length < n then m.messages else dropToLast n m.messages) := by
  unfold Memory.get_recent_history renderHistory
  by_cases hgt : m.messages.length > n
  · rw [if_pos hgt, if_neg (by omega)]
    unfold pyLastSlice dropToLast
    rw [if_neg (by omega)]
  · by_cases hlt : m.messages.length < n
    · rw [if_neg hgt, if_pos hlt]
    · rw [if_neg hgt, if_neg hlt, dropToLast_of_le (by omega)]

/-- C5 witness: a two-message store and `n = 1` return the last message's
line. -/
theorem get_recent_history_spec_witness :
    (((Memory.start 100).add_message "user" "a" "t1").add_message "assistant" "b" "t2"
        ).get_recent_history 1 =
      renderHistory (if (((Memory.start 100).add_message "user" "a" "t1").add_message
          "assistant" "b" "t2").messages.length < 1 then
        (((Memory.start 100).add_message "user" "a" "t1").add_message
          "assistant" "b" "t2").messages
      else dropToLast 1 (((Memory.start 100).add_message "user" "a" "t1").add_message
          "assistant" "b" "t2").messages) :=
  get_recent_history_spec _ 1 (by decide)

/-- C5 counterexample: `get_recent_history 0` on a one-message store returns
the whole history line, not the empty rendering of the last 0 messages that
the claim predicts for `n = 0`. -/
theorem get_recent_history_zero_returns_all :
    ((Memory.start 100).add_message "user" "hi" "t").get_recent_history 0 = "user: hi\n" ∧
    renderHistory (dropToLast 0 ((Memory.start 100).add_message "user" "hi" "t").messages) =
      "" ∧
    ¬ ((Memory.start 100).add_message "user" "hi" "t").get_recent_history 0 = "" := by
  refine ⟨by decide, by decide, by decide⟩

/-- C8: saving a memory and loading the document into a fresh store
reproduces the `{messages, tool_usage}` state exactly (the persisted
document carries both lists losslessly and `load_from_file` replaces both
fields wholesale). -/
theorem save_load_round_trip (m : Memory) (h : Nat) :
    ((Memory.start h).load_from_file m.save_to_file).messages = m.messages ∧
    ((Memory.start h).load_from_file m.save_to_file).tool_usage = m.tool_usage :=
  ⟨rfl, rfl⟩

/-! ## Planner lemmas -/

/-- C6: `create_plan` is a pure function of its inputs (its decomposition
never reads the tool map); the decomposition appends one `use_tool` step per
matched keyword category in the source's fixed order, a single `think` step
exactly when no category matched, and always a terminal `synthesize` step;
and the two concrete plans of the claim come out exactly as stated:
`"Calculate 2+2"` gives the calculator step then `synthesize` with no
`think` step, `"Do something vague"` gives exactly one `think` step then
`synthesize`. -/
theorem create_plan_spec :
    (∀ goal tools tools', decompose_goal goal tools = decompose_goal goal tools') ∧
    (∀ goal tools, decompose_goal goal tools =
      (if matchedSteps goal = [] then [thinkStep] else matchedSteps goal) ++
        [synthesizeStep]) ∧
    (TaskPlanner.mk none).create_plan "Calculate 2+2" [] =
      (calcPlan, TaskPlanner.mk (some calcPlan)) ∧
    (TaskPlanner.mk none).create_plan "Do something vague" [] =
      (vaguePlan, TaskPlanner.mk (some vaguePlan)) := by
  refine ⟨fun goal tools tools' => rfl, ?_, by decide, by decide⟩
  intro goal tools
  cases h1 : calcMatch (pyLower goal) <;> cases h2 : searchMatch (pyLower goal) <;>
    cases h3 : readMatch (pyLower goal) <;> cases h4 : writeMatch (pyLower goal) <;>
    cases h5 : timeMatch (pyLower goal) <;> cases h6 : weatherMatch (pyLower goal) <;>
    simp [decompose_goal, matchedSteps, h1, h2, h3, h4, h5, h6]

theorem setStepStatus_length (steps : List Step) (n : Nat) (st : String) :
    (setStepStatus steps n st).length = steps.length := by
  induction steps generalizing n with
  | nil => rfl
  | cons s rest ih => cases n <;> simp [setStepStatus, ih]

theorem setStepStatus_getElem_ne (steps : List Step) (n j : Nat) (st : String)
    (hne : j ≠ n) : (setStepStatus steps n st)[j]? = steps[j]? := by
  induction steps generalizing n j with
  | nil => rfl
  | cons s rest ih =>
    cases n with
    | zero =>
      cases j with
      | zero => exact absurd rfl hne
      | succ j => simp [setStepStatus]
    | succ n =>
      cases j with
      | zero => simp [setStepStatus]
      | succ j => simpa [setStepStatus] using ih n j (by omega)

theorem setStepStatus_getElem_eq (steps : List Step) (n : Nat) (st : String) :
    (setStepStatus steps n st)[n]? =
      (steps[n]?).map (fun s => { s with status := some st }) := by
  induction steps generalizing n with
  | nil => rfl
  | cons s rest ih => cases n <;> simp [setStepStatus, ih]

/-- C9 (amended): for every NONNEGATIVE `step_index` and every status,
`update_plan_status` never raises: it is a no-op when no current plan exists
or `step_index` is at or beyond the end of the steps list, and otherwise it
changes exactly the status field of the step at `step_index` (same length,
all other positions untouched).  Negative indices are excluded: the source's
guard only checks the upper bound, so a negative index reaches the Python
item assignment, which wraps indices in `[-len, -1]` and raises `IndexError`
below `-len` (see the counterexample). -/
theorem update_plan_status_nonneg_spec (p : TaskPlanner) (i : Int) (st : String)
    (hi : 0 ≤ i) :
    (p.current_plan = none → p.update_plan_status i st = .ok p) ∧
    (∀ plan, p.current_plan = some plan → (plan.steps.length : Int) ≤ i →
      p.update_plan_status i st = .ok p) ∧
    (∀ plan, p.current_plan = some plan → i < (plan.steps.length : Int) →
      p.update_plan_status i st = .ok (TaskPlanner.mk (some (withStepsSet plan i.toNat st))) ∧
      (setStepStatus plan.steps i.toNat st).length = plan.steps.length ∧
      (∀ j : Nat, j ≠ i.toNat →
        (setStepStatus plan.steps i.toNat st)[j]? = plan.steps[j]?) ∧
      (setStepStatus plan.steps i.toNat st)[i.toNat]? =
        (plan.steps[i.toNat]?).map (fun s => { s with status := some st })) := by
  refine ⟨?_, ?_, ?_⟩
  · intro hnone
    simp [TaskPlanner.update_plan_status, hnone]
  · intro plan hsome hge
    simp [TaskPlanner.update_plan_status, hsome]
    omega
  · intro plan hsome hlt
    refine ⟨?_, setStepStatus_length _ _ _,
      fun j hj => setStepStatus_getElem_ne _ _ _ _ hj, setStepStatus_getElem_eq _ _ _⟩
    simp only [TaskPlanner.update_plan_status, hsome, withStepsSet]
    rw [if_pos hlt, if_neg (show ¬ i < 0 by omega), if_pos hi]

/-- C9 witness: updating step 1 of the two-step plan succeeds and rewrites
exactly that step's status. -/
theorem update_plan_status_nonneg_spec_witness :
    twoStepPlanner.update_plan_status 1 "completed" =
      .ok (TaskPlanner.mk (some (withStepsSet twoStepPlan 1 "completed"))) :=
  ((update_plan_status_nonneg_spec twoStepPlanner 1 "completed" (by decide)).2.2
    twoStepPlan rfl (by decide)).1

/-- C9 counterexample: on the two-step plan, `step_index = -3` is out of
bounds, yet the call raises `IndexError` instead of being a silent no-op:
the guard `step_index < len(steps)` passes for every negative index and the
assignment `steps[-3]` fails on a 2-element list. -/
theorem update_plan_status_negative_raises :
    twoStepPlanner.update_plan_status (-3) "completed" =
      .error "IndexError: list assignment index out of range" := by
  rfl

/-! ## Tool executor lemmas -/

theorem execute_with_retry_fail_fail_ok (tool : ToolBehavior) (name : String)
    (params : List (String × String)) (clk : Nat → String) (ledger : List ExecRecord)
    (e1 e2 v : String) (h0 : tool 0 = .error e1) (h1 : tool 1 = .error e2)
    (h2 : tool 2 = .ok v) :
    execute_with_retry tool name params clk ledger =
      (.ok v, ledger ++
        [{ timestamp := clk 0, tool := name, parameters := params, result := none,
           success := false, error := some e1 },
         { timestamp := clk 1, tool := name, parameters := params, result := none,
           success := false, error := some e2 },
         { timestamp := clk 2, tool := name, parameters := params, result := some v,
           success := true, error := none }]) := by
  simp [execute_with_retry, retry_loop, attempt_body, h0, h1, h2]

theorem execute_with_retry_all_fail (tool : ToolBehavior) (name : String)
    (params : List (String × String)) (clk : Nat → String) (ledger : List ExecRecord)
    (es : Nat → String) (h : ∀ k, tool k = .error (es k)) :
    execute_with_retry tool name params clk ledger =
      (.retryError (es 2), ledger ++
        [{ timestamp := clk 0, tool := name, parameters := params, result := none,
           success := false, error := some (es 0) },
         { timestamp := clk 1, tool := name, parameters := params, result := none,
           success := false, error := some (es 1) },
         { timestamp := clk 2, tool := name, parameters := params, result := none,
           success := false, error := some (es 2) }]) := by
  simp [execute_with_retry, retry_loop, attempt_body, h 0, h 1, h 2]

/-- C1 (amended): `execute_with_retry` makes up to 3 attempts, and the
recording body runs on EVERY attempt, so each failed attempt is individually
appended to the ledger.  On a tool that fails exactly twice then succeeds,
the call returns the success value and appends exactly three
ExecutionRecords (two with success=false carrying the respective attempt
errors, then one with success=true); on a tool that fails on every attempt,
the call raises the retry framework's retry-exhaustion error wrapping the
last (third) attempt's error — the repository defines no ToolExecutionError
— after exactly 3 attempts, appending three success=false records. -/
theorem execute_with_retry_records_every_attempt (tool : ToolBehavior) (name : String)
    (params : List (String × String)) (clk : Nat → String) (ledger : List ExecRecord) :
    (∀ e1 e2 v, tool 0 = .error e1 → tool 1 = .error e2 → tool 2 = .ok v →
      execute_with_retry tool name params clk ledger =
        (.ok v, ledger ++
          [{ timestamp := clk 0, tool := name, parameters := params, result := none,
             success := false, error := some e1 },
           { timestamp := clk 1, tool := name, parameters := params, result := none,
             success := false, error := some e2 },
           { timestamp := clk 2, tool := name, parameters := params, result := some v,
             success := true, error := none }])) ∧
    (∀ es : Nat → String, (∀ k, tool k = .error (es k)) →
      execute_with_retry tool name params clk ledger =
        (.retryError (es 2), ledger ++
          [{ timestamp := clk 0, tool := name, parameters := params, result := none,
             success := false, error := some (es 0) },
           { timestamp := clk 1, tool := name, parameters := params, result := none,
             success := false, error := some (es 1) },
           { timestamp := clk 2, tool := name, parameters := params, result := none,
             success := false, error := some (es 2) }])) :=
  ⟨fun e1 e2 v h0 h1 h2 =>
    execute_with_retry_fail_fail_ok tool name params clk ledger e1 e2 v h0 h1 h2,
   fun es h => execute_with_retry_all_fail tool name params clk ledger es h⟩

/-- C1 witness: the two retry scenarios evaluated on concrete tools. -/
theorem execute_with_retry_records_every_attempt_witness :
    execute_with_retry failTwiceTool "t" [] tsClk [] =
      (.ok "yay",
        [{ timestamp := "ts", tool := "t", parameters := [], result := none,
           success := false, error := some "e0" },
         { timestamp := "ts", tool := "t", parameters := [], result := none,
           success := false, error := some "e1" },
         { timestamp := "ts", tool := "t", parameters := [], result := some "yay",
           success := true, error := none }]) ∧
    execute_with_retry alwaysFailTool "t" [] tsClk [] =
      (.retryError "2",
        [{ timestamp := "ts", tool := "t", parameters := [], result := none,
           success := false, error := some "0" },
         { timestamp := "ts", tool := "t", parameters := [], result := none,
           success := false, error := some "1" },
         { timestamp := "ts", tool := "t", parameters := [], result := none,
           success := false, error := some "2" }]) := by
  constructor
  · have h := (execute_with_retry_records_every_attempt failTwiceTool "t" [] tsClk []).1
      "e0" "e1" "yay" rfl rfl rfl
    simpa [tsClk] using h
  · have h := (execute_with_retry_records_every_attempt alwaysFailTool "t" [] tsClk []).2
      (fun k => toString k) (fun k => rfl)
    simpa [tsClk] using h

/-- C1 counterexample: on a tool that fails exactly twice and then succeeds,
the call returns the success value but the ledger receives THREE records,
not exactly one — the failed attempts are individually recorded. -/
theorem execute_with_retry_not_single_record :
    (execute_with_retry failTwiceTool "t" [] tsClk []).1 = .ok "yay" ∧
    (execute_with_retry failTwiceTool "t" [] tsClk []).2.length = 3 ∧
    ¬ (execute_with_retry failTwiceTool "t" [] tsClk []).2.length = 1 := by
  decide

/-- C7: `execute_safe` handles both outcomes of `execute_with_retry` — it
returns the value on success and `default_value` on the propagated failure,
so it never raises; in particular, on a tool that fails on every attempt it
returns `default_value`. -/
theorem execute_safe_never_raises (tool : ToolBehavior) (name : String)
    (params : List (String × String)) (clk : Nat → String) (default_value : String)
    (ledger : List ExecRecord) :
    ((execute_safe tool name params clk default_value ledger).1 =
      match (execute_with_retry tool name params clk ledger).1 with
      | .ok v => v
      | .retryError _ => default_value) ∧
    ((∀ k, ∃ e, tool k = .error e) →
      (execute_safe tool name params clk default_value ledger).1 = default_value) := by
  constructor
  · rcases hw : execute_with_retry tool name params clk ledger with ⟨o, led⟩
    cases o <;> simp [execute_safe, hw]
  · intro h
    choose es hes using h
    simp [execute_safe, execute_with_retry_all_fail tool name params clk ledger es hes]

/-- C7 witness: the always-failing tool with default `"X"` yields `"X"`. -/
theorem execute_safe_never_raises_witness :
    (execute_safe alwaysFailTool "t" [] tsClk "X" []).1 = "X" :=
  (execute_safe_never_raises alwaysFailTool "t" [] tsClk "X" []).2
    (fun k => ⟨toString k, rfl⟩)

/-- C4: whenever the oracle's response text does not parse as structured
data (`json.loads` raises), `_decide_next_action` does not raise: it falls
back to a `think` action whose thought text is the raw response, so the loop
always receives one of the three action shapes. -/
theorem decide_next_action_malformed (loads : String → Option Action) (text : String)
    (h : loads text = none) : decide_next_action loads text = .think text := by
  simp [decide_next_action, h]

/-- C4 witness: a parser that rejects everything folds the raw text into a
think action. -/
theorem decide_next_action_malformed_witness :
    decide_next_action (fun _ => none) "not json" = .think "not json" :=
  decide_next_action_malformed (fun _ => none) "not json" rfl

/-! ## Execution loop lemmas -/

theorem exec_loop_no_complete (oracle : Nat → Action)
    (runTool : String → List (String × String) → String) (clk : Nat → String)
    (h : ∀ k r, oracle k ≠ Action.complete r) :
    ∀ fuel it ci mem,
    (exec_loop oracle runTool clk fuel it ci mem).1 = it + fuel ∧
    (exec_loop oracle runTool clk fuel it ci mem).2.2.1 = none := by
  intro fuel
  induction fuel with
  | zero => intro it ci mem; simp [exec_loop]
  | succ n ih =>
    intro it ci mem
    cases ho : oracle (it + 1) with
    | complete r => exact absurd ho (h _ _)
    | use_tool t inp =>
      have hr := ih (it + 1) (ci + 1) (mem.add_tool_use t inp (runTool t inp) (clk ci))
      refine ⟨?_, ?_⟩
      · rw [show (exec_loop oracle runTool clk (n + 1) it ci mem) =
          exec_loop oracle runTool clk n (it + 1) (ci + 1)
            (mem.add_tool_use t inp (runTool t inp) (clk ci)) by simp [exec_loop, ho], hr.1]
        omega
      · rw [show (exec_loop oracle runTool clk (n + 1) it ci mem) =
          exec_loop oracle runTool clk n (it + 1) (ci + 1)
            (mem.add_tool_use t inp (runTool t inp) (clk ci)) by simp [exec_loop, ho], hr.2]
    | think th =>
      have hr := ih (it + 1) (ci + 1) (mem.add_message "assistant" th (clk ci))
      refine ⟨?_, ?_⟩
      · rw [show (exec_loop oracle runTool clk (n + 1) it ci mem) =
          exec_loop oracle runTool clk n (it + 1) (ci + 1)
            (mem.add_message "assistant" th (clk ci)) by simp [exec_loop, ho], hr.1]
        omega
      · rw [show (exec_loop oracle runTool clk (n + 1) it ci mem) =
          exec_loop oracle runTool clk n (it + 1) (ci + 1)
            (mem.add_message "assistant" th (clk ci)) by simp [exec_loop, ho], hr.2]

theorem exec_loop_complete_at_end (oracle : Nat → Action)
    (runTool : String → List (String × String) → String) (clk : Nat → String)
    (s : String) :
    ∀ fuel it ci mem, 1 ≤ fuel →
    (∀ j r, it < j → j < it + fuel → oracle j ≠ Action.complete r) →
    oracle (it + fuel) = Action.complete s →
    (exec_loop oracle runTool clk fuel it ci mem).1 = it + fuel ∧
    (exec_loop oracle runTool clk fuel it ci mem).2.2.1 = some s := by
  intro fuel
  induction fuel with
  | zero => intro it ci mem h1; omega
  | succ n ih =>
    intro it ci mem _ hmid hend
    cases n with
    | zero =>
      simp only [Nat.zero_add] at hend
      simp [exec_loop, hend]
    | succ n2 =>
      have hne : ∀ r, oracle (it + 1) ≠ Action.complete r :=
        fun r => hmid (it + 1) r (by omega) (by omega)
      cases ho : oracle (it + 1) with
      | complete r => exact absurd ho (hne r)
      | use_tool t inp =>
        have hend' : oracle (it + 1 + (n2 + 1)) = Action.complete s := by
          rw [show it + 1 + (n2 + 1) = it + (n2 + 1 + 1) by omega]
          exact hend
        have hr := ih (it + 1) (ci + 1) (mem.add_tool_use t inp (runTool t inp) (clk ci))
          (by omega) (fun j r hj1 hj2 => hmid j r (by omega) (by omega)) hend'
        refine ⟨?_, ?_⟩
        · rw [show (exec_loop oracle runTool clk (n2 + 1 + 1) it ci mem) =
            exec_loop oracle runTool clk (n2 + 1) (it + 1) (ci + 1)
              (mem.add_tool_use t inp (runTool t inp) (clk ci)) by simp [exec_loop, ho], hr.1]
          omega
        · rw [show (exec_loop oracle runTool clk (n2 + 1 + 1) it ci mem) =
            exec_loop oracle runTool clk (n2 + 1) (it + 1) (ci + 1)
              (mem.add_tool_use t inp (runTool t inp) (clk ci)) by simp [exec_loop, ho], hr.2]
      | think th =>
        have hend' : oracle (it + 1 + (n2 + 1)) = Action.complete s := by
          rw [show it + 1 + (n2 + 1) = it + (n2 + 1 + 1) by omega]
          exact hend
        have hr := ih (it + 1) (ci + 1) (mem.add_message "assistant" th (clk ci))
          (by omega) (fun j r hj1 hj2 => hmid j r (by omega) (by omega)) hend'
        refine ⟨?_, ?_⟩
        · rw [show (exec_loop oracle runTool clk (n2 + 1 + 1) it ci mem) =
            exec_loop oracle runTool clk (n2 + 1) (it + 1) (ci + 1)
              (mem.add_message "assistant" th (clk ci)) by simp [exec_loop, ho], hr.1]
          omega
        · rw [show (exec_loop oracle runTool clk (n2 + 1 + 1) it ci mem) =
            exec_loop oracle runTool clk (n2 + 1) (it + 1) (ci + 1)
              (mem.add_message "assistant" th (clk ci)) by simp [exec_loop, ho], hr.2]

/-- C2: when the oracle never returns a `complete` action, the loop performs
exactly `max_iterations` iterations, the final result is the fixed
exhaustion message, the returned success flag equals
`iterations_used < max_iterations` and is therefore false with
`iterations = max_iterations`, and the final result is appended to Memory as
an assistant message. -/
theorem agent_execute_exhaustion (oracle : Nat → Action)
    (runTool : String → List (String × String) → String) (clk : Nat → String)
    (planner : TaskPlanner) (descs : List (String × String)) (maxIter : Nat)
    (goal : String) (mem0 : Memory)
    (h : ∀ k r, oracle k ≠ Action.complete r) :
    (agent_execute oracle runTool clk planner descs maxIter goal mem0).1.iterations =
      maxIter ∧
    (agent_execute oracle runTool clk planner descs maxIter goal mem0).1.result =
      exhausted_message ∧
    (agent_execute oracle runTool clk planner descs maxIter goal mem0).1.success =
      decide ((agent_execute oracle runTool clk planner descs maxIter goal
        mem0).1.iterations < maxIter) ∧
    (agent_execute oracle runTool clk planner descs maxIter goal mem0).1.success = false ∧
    ∃ (m : Memory) (ci : Nat),
      (agent_execute oracle runTool clk planner descs maxIter goal mem0).2.1 =
        m.add_message "assistant" exhausted_message (clk ci) := by
  obtain ⟨h1, h2⟩ := exec_loop_no_complete oracle runTool clk h maxIter 0 1
    (mem0.add_message "user" goal (clk 0))
  refine ⟨by simp [agent_execute, h1], by simp [agent_execute, h2], ?_, ?_, ?_⟩
  · simp [agent_execute, h1]
  · simp [agent_execute, h1]
  · exact ⟨(exec_loop oracle runTool clk maxIter 0 1
      (mem0.add_message "user" goal (clk 0))).2.1,
      (exec_loop oracle runTool clk maxIter 0 1
        (mem0.add_message "user" goal (clk 0))).2.2.2,
      by simp [agent_execute, h2]⟩

/-- C2 witness: `max_iterations = 1` with an always-think oracle terminates
with success=false, iterations=1, the exhaustion result, and a Memory
holding the goal, the think message and the final exhausted assistant
message. -/
theorem agent_execute_exhaustion_witness :
    (agent_execute thinkOracle (fun _ _ => "") tsClk (TaskPlanner.mk none) [] 1 "g"
      (Memory.start 100)).1.iterations = 1 ∧
    (agent_execute thinkOracle (fun _ _ => "") tsClk (TaskPlanner.mk none) [] 1 "g"
      (Memory.start 100)).1.success = false ∧
    (agent_execute thinkOracle (fun _ _ => "") tsClk (TaskPlanner.mk none) [] 1 "g"
      (Memory.start 100)).1.result = exhausted_message ∧
    (agent_execute thinkOracle (fun _ _ => "") tsClk (TaskPlanner.mk none) [] 1 "g"
      (Memory.start 100)).2.1.messages.map (fun m => (m.role, m.content)) =
      [("user", "g"), ("assistant", "x"), ("assistant", exhausted_message)] := by
  have h := agent_execute_exhaustion thinkOracle (fun _ _ => "") tsClk
    (TaskPlanner.mk none) [] 1 "g" (Memory.start 100)
    (fun k r hc => by simp [thinkOracle] at hc)
  exact ⟨h.1, h.2.2.2.1, h.2.1, by decide⟩

/-- C10: if the oracle first returns a `complete` action exactly on the
`max_iterations`-th iteration, `execute` stops with that action's result as
the result field, yet the returned success flag is false, because success is
computed as `iteration < max_iterations` after the loop and the break leaves
`iteration = max_iterations`. -/
theorem agent_execute_complete_on_last (oracle : Nat → Action)
    (runTool : String → List (String × String) → String) (clk : Nat → String)
    (planner : TaskPlanner) (descs : List (String × String)) (maxIter : Nat)
    (goal : String) (mem0 : Memory) (s : String)
    (hpos : 1 ≤ maxIter)
    (hlast : oracle maxIter = Action.complete s)
    (hmid : ∀ j r, 1 ≤ j → j < maxIter → oracle j ≠ Action.complete r) :
    (agent_execute oracle runTool clk planner descs maxIter goal mem0).1.result = s ∧
    (agent_execute oracle runTool clk planner descs maxIter goal mem0).1.iterations =
      maxIter ∧
    (agent_execute oracle runTool clk planner descs maxIter goal mem0).1.success =
      false := by
  obtain ⟨h1, h2⟩ := exec_loop_complete_at_end oracle runTool clk s maxIter 0 1
    (mem0.add_message "user" goal (clk 0)) hpos
    (fun j r hj1 hj2 => hmid j r (by omega) (by omega))
    (by simpa using hlast)
  exact ⟨by simp [agent_execute, h2], by simp [agent_execute, h1],
    by simp [agent_execute, h1]⟩

/-- C10 witness: `max_iterations = 2` with an oracle completing `"42"`
exactly on iteration 2 returns result `"42"`, iterations 2, success false. -/
theorem agent_execute_complete_on_last_witness :
    (agent_execute lateOracle (fun _ _ => "") tsClk (TaskPlanner.mk none) [] 2 "g"
      (Memory.start 100)).1.result = "42" ∧
    (agent_execute lateOracle (fun _ _ => "") tsClk (TaskPlanner.mk none) [] 2 "g"
      (Memory.start 100)).1.iterations = 2 ∧
    (agent_execute lateOracle (fun _ _ => "") tsClk (TaskPlanner.mk none) [] 2 "g"
      (Memory.start 100)).1.success = false :=
  agent_execute_complete_on_last lateOracle (fun _ _ => "") tsClk (TaskPlanner.mk none)
    [] 2 "g" (Memory.start 100) "42" (by decide) rfl
    (fun j r h1 h2 hc => by
      have hj : j = 1 := by omega
      subst hj
      simp [lateOracle] at hc)

end Agentic
